import Mathlib

/-!
Shallow embedding of the WooCommerce polling-and-pagination engine
(`woocommerce_api.py`, class `WooCommerceManager`), together with
theorems settling the specification claims about it.

Modelling conventions:
* Timestamps are integers (seconds); `timedelta(minutes=5)` is 300 and
  `timedelta(days=1)` is 86400.
* An order record is opaque to the engine; we represent one by `Nat`.
* The external API adapter (`self.api.get('orders', params)`) is a
  function from the issued page request to a response; a transport or
  JSON-decoding exception is the `PageResp.exn` constructor.
* The `while True` pagination loop is given explicit fuel; the outer
  `Option` of `get_orders` is `none` exactly when the fuel runs out,
  which never happens for the servers built in the theorems below.
* `get_orders` also returns the list of page requests it issued, in
  order, so that request counts and filter parameters are observable.
-/

namespace WC

/-- The caller-supplied filter parameters (the `params` dict in the
source): `fetch_orders_since` passes `modified_after`,
`fetch_last_day_orders` passes `after`. -/
structure Params where
  modified_after : Option Int
  after : Option Int
deriving DecidableEq

/-- One page request as built in `get_orders` (`current_params`): the
fixed defaults plus the page index plus the caller's filters. -/
structure PageRequest where
  per_page : Nat
  page : Nat
  orderby : String
  order : String
  status : String
  modified_after : Option Int
  after : Option Int
deriving DecidableEq

/-- Builds `current_params`: fixed defaults (`per_page`, `page`,
`orderby=date`, `order=desc`, `status=any`) updated with the caller's
filter parameters (`current_params.update(params)`). -/
def mkRequest (per_page page : Nat) (params : Params) : PageRequest :=
  { per_page := per_page, page := page, orderby := "date", order := "desc",
    status := "any", modified_after := params.modified_after, after := params.after }

/-- The decoded body of a page response (`response.json()`): either not
a list (covering the `not isinstance(orders_page, list)` check) or a
list of order records. -/
inductive Body where
  | notList : Body
  | ok (orders : List Nat) : Body
deriving DecidableEq

/-- Outcome of one `self.api.get('orders', ...)` call: a transport or
JSON-decoding exception (caught by the `except` in `get_orders`), or a
response carrying a status code and a body. -/
inductive PageResp where
  | exn : PageResp
  | resp (code : Nat) (body : Body) : PageResp
deriving DecidableEq

/-- The mutable state of a `WooCommerceManager` instance: the API
handle (`self.api`, `none` before a successful client construction),
the `sync_running` flag and the `last_sync` watermark. -/
structure MgrState where
  api : Option Unit
  sync_running : Bool
  last_sync : Int
deriving DecidableEq

/-- The `while True` body of `get_orders`, with explicit fuel.
Arguments after the colon: fuel, current page index, `all_orders`
accumulator, requests issued so far.  Mirrors the source:
* transport exception → the whole call returns `None` (inner `none`);
* status 200 and empty-or-non-list body → break, return accumulator;
* status 200, non-empty list → extend; stop if `paginate_all` is
  false, stop if the page is shorter than `per_page`, else next page;
* non-200 status → break, return accumulator (partial result). -/
def get_orders_loop (server : PageRequest → PageResp) (per_page : Nat)
    (params : Params) (paginate_all : Bool) :
    Nat → Nat → List Nat → List PageRequest →
    Option (Option (List Nat) × List PageRequest)
  | 0, _, _, _ => none
  | fuel + 1, page, acc, issued =>
    let req := mkRequest per_page page params
    match server req with
    | .exn => some (none, issued ++ [req])
    | .resp code body =>
      if code = 200 then
        match body with
        | .notList => some (some acc, issued ++ [req])
        | .ok xs =>
          if xs = [] then some (some acc, issued ++ [req])
          else if paginate_all = false then some (some (acc ++ xs), issued ++ [req])
          else if xs.length < per_page then some (some (acc ++ xs), issued ++ [req])
          else get_orders_loop server per_page params paginate_all fuel
                (page + 1) (acc ++ xs) (issued ++ [req])
      else some (some acc, issued ++ [req])

/-- `get_orders`: returns `None` immediately when `self.api` is unset
(no request issued), otherwise runs the pagination loop from page 1
with an empty accumulator. -/
def get_orders (s : MgrState) (server : PageRequest → PageResp)
    (per_page : Nat) (params : Params) (paginate_all : Bool) (fuel : Nat) :
    Option (Option (List Nat) × List PageRequest) :=
  match s.api with
  | none => some (none, [])
  | some _ => get_orders_loop server per_page params paginate_all fuel 1 [] []

/-- `fetch_orders_since`: queries with `modified_after` set to the
given watermark minus 5 minutes (300 seconds) and `paginate_all`
false.  Its `try/except` cannot fire in the model because
`get_orders` already catches every transport failure. -/
def fetch_orders_since (s : MgrState) (server : PageRequest → PageResp)
    (per_page fuel : Nat) (since_timestamp : Int) :
    Option (Option (List Nat) × List PageRequest) :=
  get_orders s server per_page
    { modified_after := some (since_timestamp - 300), after := none } false fuel

/-- `fetch_last_day_orders`: queries with `after` set to the current
time minus 24 hours (86400 seconds) and `paginate_all` true.  `now` is
the clock reading taken by `datetime.now(timezone.utc)` in the method;
the watermark `s.last_sync` is not consulted. -/
def fetch_last_day_orders (s : MgrState) (server : PageRequest → PageResp)
    (per_page fuel : Nat) (now : Int) :
    Option (Option (List Nat) × List PageRequest) :=
  get_orders s server per_page
    { modified_after := none, after := some (now - 86400) } true fuel

/-- A simulated server holding a fixed list of pages, addressed by the
1-indexed `page` field of the request; pages past the end are empty
(the remote collection is exhausted). -/
def pageServer (pages : List (List Nat)) (r : PageRequest) : PageResp :=
  if h : r.page - 1 < pages.length then .resp 200 (.ok (pages.get ⟨r.page - 1, h⟩))
  else .resp 200 (.ok [])

/-- How one run of the `initialize` method interacts with the outside
world: the `API(...)` client construction raises, or construction
succeeds and the `system_status` probe raises, or construction
succeeds and the probe returns a status code. -/
inductive InitOutcome where
  | ctorRaises : InitOutcome
  | probeRaises : InitOutcome
  | statusCode (code : Nat) : InitOutcome
deriving DecidableEq

/-- The `initialize` method.  `self.api = API(...)` runs first, so the
handle is stored as soon as construction succeeds, even when the probe
then raises or returns a non-200 status; every exception is caught and
turned into a `false` return. -/
def initManager (s : MgrState) (o : InitOutcome) : MgrState × Bool :=
  match o with
  | .ctorRaises => (s, false)
  | .probeRaises => ({ s with api := some () }, false)
  | .statusCode code => ({ s with api := some () }, code == 200)

/-- Observable outcome of one iteration of `_polling_loop`: the state
after the iteration, whether an exception was raised and caught by the
`except` handler, and the duration of the sleep that ended the
iteration. -/
structure CycleResult where
  state : MgrState
  caught : Bool
  sleep : Nat
deriving DecidableEq

/-- One iteration of the `while self.sync_running` body.  `fetch`
abstracts `fetch_orders_since` applied to the current watermark (it
returns `Option (List Nat)` and never raises); `fetchRaises`,
`cbRaises` and `sleepRaises` say whether an exception is raised while
fetching, inside the consumer callback, or by the inter-cycle sleep.
`tStart` is the instant at which the iteration begins; the code never
reads it — the watermark is assigned from a fresh clock reading
(`datetime.now(timezone.utc)`), modelled by `tNow`, taken after the
callback returns.  Any exception lands in the `except` handler:
state mutations already performed are kept and a fixed 60-second
back-off sleep follows. -/
def polling_cycle (fetch : Int → Option (List Nat))
    (fetchRaises cbRaises sleepRaises : Bool) (tStart tNow : Int)
    (interval : Nat) (s : MgrState) : CycleResult :=
  if fetchRaises then { state := s, caught := true, sleep := 60 }
  else
    match fetch s.last_sync with
    | some orders =>
      if orders = [] then
        if sleepRaises then { state := s, caught := true, sleep := 60 }
        else { state := s, caught := false, sleep := interval }
      else
        if cbRaises then { state := s, caught := true, sleep := 60 }
        else
          let s2 : MgrState := { s with last_sync := tNow }
          if sleepRaises then { state := s2, caught := true, sleep := 60 }
          else { state := s2, caught := false, sleep := interval }
    | none =>
      if sleepRaises then { state := s, caught := true, sleep := 60 }
      else { state := s, caught := false, sleep := interval }

/-- The environment of one loop iteration: what the fetch yields as a
function of the watermark, which steps raise, the two clock instants,
and whether `stop_sync` is called before the next `sync_running`
check. -/
structure CycleEvent where
  fetch : Int → Option (List Nat)
  fetchRaises : Bool
  cbRaises : Bool
  sleepRaises : Bool
  tStart : Int
  tNow : Int
  stopDuring : Bool

/-- `_polling_loop` over a finite trace of iteration environments:
while `sync_running` holds, run one cycle per event (applying a
`stop_sync` that happened during the cycle), and count the iterations
executed.  The loop body itself never exits early: only the flag
check does. -/
def polling_loop (interval : Nat) : List CycleEvent → MgrState → MgrState × Nat
  | [], s => (s, 0)
  | e :: rest, s =>
    if s.sync_running then
      let r := polling_cycle e.fetch e.fetchRaises e.cbRaises e.sleepRaises
                 e.tStart e.tNow interval s
      let s2 := if e.stopDuring then { r.state with sync_running := false } else r.state
      let p := polling_loop interval rest s2
      (p.1, p.2 + 1)
    else (s, 0)

/-! ### Helper lemmas about the pagination loop -/

/-- Requests already recorded in the accumulator survive to the final
issued list: the loop only ever appends to it. -/
lemma get_orders_loop_issued_mono (server : PageRequest → PageResp)
    (per_page : Nat) (params : Params) (pa : Bool) :
    ∀ (fuel page : Nat) (acc : List Nat) (issued0 : List PageRequest)
      (res : Option (List Nat)) (issued : List PageRequest),
    get_orders_loop server per_page params pa fuel page acc issued0 = some (res, issued) →
    issued0 ⊆ issued := by
  intro fuel
  induction fuel with
  | zero =>
    intro page acc issued0 res issued h
    simp [get_orders_loop] at h
  | succ n ih =>
    intro page acc issued0 res issued h
    simp only [get_orders_loop] at h
    repeat' split at h
    all_goals try (cases h)
    all_goals try exact List.subset_append_left _ _
    exact (List.subset_append_left _ _).trans (ih _ _ _ _ _ h)

/-- With positive fuel the loop issues at least the request for its
starting page: the accumulator extended with that request is contained
in the final issued list. -/
lemma get_orders_loop_first_req (server : PageRequest → PageResp)
    (per_page : Nat) (params : Params) (pa : Bool)
    (fuel page : Nat) (acc : List Nat) (issued0 : List PageRequest)
    (res : Option (List Nat)) (issued : List PageRequest)
    (hfuel : 0 < fuel)
    (h : get_orders_loop server per_page params pa fuel page acc issued0 = some (res, issued)) :
    issued0 ++ [mkRequest per_page page params] ⊆ issued := by
  obtain ⟨n, rfl⟩ : ∃ n, fuel = n + 1 := ⟨fuel - 1, by omega⟩
  simp only [get_orders_loop] at h
  repeat' split at h
  all_goals try (cases h)
  all_goals try exact List.Subset.refl _
  exact get_orders_loop_issued_mono _ _ _ _ _ _ _ _ _ _ h

/-- Every request in the final issued list was either already in the
accumulator or was built by `mkRequest` from the loop's fixed
`per_page` and filter parameters (for some page index). -/
lemma get_orders_loop_issued_shape (server : PageRequest → PageResp)
    (per_page : Nat) (params : Params) (pa : Bool) :
    ∀ (fuel page : Nat) (acc : List Nat) (issued0 : List PageRequest)
      (res : Option (List Nat)) (issued : List PageRequest),
    get_orders_loop server per_page params pa fuel page acc issued0 = some (res, issued) →
    ∀ r ∈ issued, r ∈ issued0 ∨ ∃ pg, r = mkRequest per_page pg params := by
  intro fuel
  induction fuel with
  | zero =>
    intro page acc issued0 res issued h
    simp [get_orders_loop] at h
  | succ n ih =>
    intro page acc issued0 res issued h
    simp only [get_orders_loop] at h
    repeat' split at h
    all_goals try (cases h)
    all_goals try
      (intro r hr
       rcases List.mem_append.mp hr with h0 | h1
       · exact Or.inl h0
       · exact Or.inr ⟨page, by simpa using h1⟩)
    intro r hr
    rcases ih _ _ _ _ _ h r hr with h0 | h1
    · rcases List.mem_append.mp h0 with h2 | h3
      · exact Or.inl h2
      · exact Or.inr ⟨page, by simpa using h3⟩
    · exact Or.inr h1

/-- One loop step on a successful full page (in fetch-all mode): the
page is appended and the loop moves to the next page index. -/
lemma loop_step_full (server : PageRequest → PageResp) (per_page : Nat)
    (params : Params) (page : Nat) (p : List Nat)
    (hsv : server (mkRequest per_page page params) = .resp 200 (.ok p))
    (hlen : p.length = per_page) (hpp : 0 < per_page)
    (fuel : Nat) (acc : List Nat) (issued : List PageRequest) :
    get_orders_loop server per_page params true (fuel + 1) page acc issued
      = get_orders_loop server per_page params true fuel (page + 1) (acc ++ p)
          (issued ++ [mkRequest per_page page params]) := by
  have hpne : ¬ p = [] := by
    intro hq
    rw [hq] at hlen
    simp at hlen
    omega
  have hnlt : ¬ p.length < per_page := by omega
  simp [get_orders_loop, hsv, hpne, hnlt]

/-- One loop step on a successful page shorter than `per_page` (in
fetch-all mode): the page is appended and pagination stops. -/
lemma loop_step_stop_short (server : PageRequest → PageResp) (per_page : Nat)
    (params : Params) (page : Nat) (p : List Nat)
    (hsv : server (mkRequest per_page page params) = .resp 200 (.ok p))
    (hpne : p ≠ []) (hlt : p.length < per_page)
    (fuel : Nat) (acc : List Nat) (issued : List PageRequest) :
    get_orders_loop server per_page params true (fuel + 1) page acc issued
      = some (some (acc ++ p), issued ++ [mkRequest per_page page params]) := by
  simp [get_orders_loop, hsv, hpne, hlt]

/-- One loop step on a transport exception: the whole call yields the
`None` signal, discarding the accumulator. -/
lemma loop_step_exn (server : PageRequest → PageResp) (per_page : Nat)
    (params : Params) (page : Nat)
    (hsv : server (mkRequest per_page page params) = .exn)
    (pa : Bool) (fuel : Nat) (acc : List Nat) (issued : List PageRequest) :
    get_orders_loop server per_page params pa (fuel + 1) page acc issued
      = some (none, issued ++ [mkRequest per_page page params]) := by
  simp [get_orders_loop, hsv]

/-- One loop step on a non-success status: pagination stops and the
accumulator gathered so far is returned. -/
lemma loop_step_bad_status (server : PageRequest → PageResp) (per_page : Nat)
    (params : Params) (page : Nat) (code : Nat) (body : Body)
    (hsv : server (mkRequest per_page page params) = .resp code body)
    (hcode : code ≠ 200)
    (pa : Bool) (fuel : Nat) (acc : List Nat) (issued : List PageRequest) :
    get_orders_loop server per_page params pa (fuel + 1) page acc issued
      = some (some acc, issued ++ [mkRequest per_page page params]) := by
  simp [get_orders_loop, hsv, hcode]

/-- The flattening of a list of full pages has `pages × per_page`
elements. -/
lemma flatten_length_of_full (per_page : Nat) :
    ∀ ps : List (List Nat), (∀ p ∈ ps, p.length = per_page) →
    ps.flatten.length = ps.length * per_page := by
  intro ps
  induction ps with
  | nil => intro _; simp
  | cons p ps ih =>
    intro h
    have hp := h p (List.mem_cons_self _ _)
    have ihh := ih (fun q hq => h q (List.mem_cons_of_mem _ hq))
    simp [List.flatten_cons, hp, ihh, Nat.succ_mul, Nat.add_comm]

/-- Reading `pageServer` inside its page list. -/
lemma pageServer_eq (pages : List (List Nat)) (r : PageRequest)
    (h : r.page - 1 < pages.length) :
    pageServer pages r = .resp 200 (.ok (pages.get ⟨r.page - 1, h⟩)) := by
  rw [pageServer, dif_pos h]

/-- Running the fetch-all loop across a block of consecutive full
pages appends their concatenation to the accumulator, records one
request per page, and continues right after the block. -/
lemma get_orders_loop_full_block (server : PageRequest → PageResp)
    (per_page : Nat) (params : Params) (hpp : 0 < per_page) :
    ∀ (ps : List (List Nat)) (j : Nat) (acc : List Nat)
      (issued : List PageRequest) (f : Nat),
    (∀ p ∈ ps, p.length = per_page) →
    (∀ i (h : i < ps.length), server (mkRequest per_page (j + i) params)
        = .resp 200 (.ok (ps.get ⟨i, h⟩))) →
    get_orders_loop server per_page params true (f + ps.length) j acc issued
      = get_orders_loop server per_page params true f (j + ps.length) (acc ++ ps.flatten)
          (issued ++ (List.range ps.length).map (fun i => mkRequest per_page (j + i) params)) := by
  intro ps
  induction ps with
  | nil =>
    intro j acc issued f _ _
    simp
  | cons p ps ih =>
    intro j acc issued f hfull hserver
    have hp : p.length = per_page := hfull p (List.mem_cons_self _ _)
    have h0 : server (mkRequest per_page j params) = .resp 200 (.ok p) := by
      simpa using hserver 0 (by simp)
    have hserver2 : ∀ i (h : i < ps.length),
        server (mkRequest per_page ((j + 1) + i) params) = .resp 200 (.ok (ps.get ⟨i, h⟩)) := by
      intro i hi
      have harg : (j + 1) + i = j + (i + 1) := by omega
      rw [harg]
      exact hserver (i + 1) (by simpa using Nat.succ_lt_succ hi)
    have hfull2 : ∀ q ∈ ps, q.length = per_page :=
      fun q hq => hfull q (List.mem_cons_of_mem _ hq)
    show get_orders_loop server per_page params true ((f + ps.length) + 1) j acc issued = _
    rw [loop_step_full server per_page params j p h0 hp hpp (f + ps.length) acc issued]
    rw [ih (j + 1) (acc ++ p) (issued ++ [mkRequest per_page j params]) f hfull2 hserver2]
    have e1 : (j + 1) + ps.length = j + (p :: ps).length := by
      simp [List.length_cons]
      omega
    have e2 : (acc ++ p) ++ ps.flatten = acc ++ (p :: ps).flatten := by
      simp [List.flatten_cons]
    have e3 : (issued ++ [mkRequest per_page j params])
          ++ (List.range ps.length).map (fun i => mkRequest per_page ((j + 1) + i) params)
        = issued ++ (List.range (p :: ps).length).map (fun i => mkRequest per_page (j + i) params) := by
      rw [List.append_assoc]
      congr 1
      rw [List.length_cons, List.range_succ_eq_map, List.map_cons, List.map_map,
        List.singleton_append]
      congr 1
      refine List.map_congr_left ?_
      intro i hi
      show mkRequest per_page ((j + 1) + i) params = mkRequest per_page (j + (i + 1)) params
      congr 1
      omega
    rw [e1, e2, e3]

/-- With the API handle present, `get_orders` is the pagination loop
started at page 1 with empty accumulators. -/
lemma get_orders_api (s : MgrState) (hapi : s.api = some ())
    (server : PageRequest → PageResp) (per_page : Nat) (params : Params)
    (pa : Bool) (fuel : Nat) :
    get_orders s server per_page params pa fuel
      = get_orders_loop server per_page params pa fuel 1 [] [] := by
  rw [get_orders, hapi]

/-- `pageServer` answers a request whose (1-indexed) page field points
inside its page list with that page. -/
lemma pageServer_lookup (pages : List (List Nat)) (r : PageRequest) (i : Nat)
    (hpage : r.page - 1 = i) (h : i < pages.length) :
    pageServer pages r = .resp 200 (.ok (pages.get ⟨i, h⟩)) := by
  subst hpage
  exact pageServer_eq pages r h

/-- A `pageServer` over `full ++ [lastPage]` serves the pages of
`full` at page indices `1 + i`. -/
lemma pageServer_full_part (full : List (List Nat)) (lastPage : List Nat)
    (per_page : Nat) (params : Params) :
    ∀ i (h : i < full.length),
      pageServer (full ++ [lastPage]) (mkRequest per_page (1 + i) params)
        = .resp 200 (.ok (full.get ⟨i, h⟩)) := by
  intro i h
  have hlt : i < (full ++ [lastPage]).length := by
    simp
    omega
  rw [pageServer_lookup (full ++ [lastPage]) _ i (by simp [mkRequest]) hlt]
  congr 1
  congr 1
  simp only [List.get_eq_getElem]
  exact List.getElem_append_left h

/-- A polling cycle never touches the `sync_running` flag. -/
lemma polling_cycle_sync_running (fetch : Int → Option (List Nat))
    (fr cb sl : Bool) (tS tN : Int) (interval : Nat) (s : MgrState) :
    (polling_cycle fetch fr cb sl tS tN interval s).state.sync_running = s.sync_running := by
  unfold polling_cycle
  repeat' split
  all_goals rfl

/-- Whenever a cycle catches an exception, the sleep that follows is
the fixed 60-second back-off. -/
lemma polling_cycle_caught_sleep (fetch : Int → Option (List Nat))
    (fr cb sl : Bool) (tS tN : Int) (interval : Nat) (s : MgrState) :
    (polling_cycle fetch fr cb sl tS tN interval s).caught = true →
    (polling_cycle fetch fr cb sl tS tN interval s).sleep = 60 := by
  unfold polling_cycle
  repeat' split
  all_goals simp

/-- When the `sync_running` flag is down, the loop runs no iteration. -/
lemma polling_loop_not_running (interval : Nat) (events : List CycleEvent)
    (s : MgrState) (h : s.sync_running = false) :
    polling_loop interval events s = (s, 0) := by
  cases events with
  | nil => rfl
  | cons e rest => simp [polling_loop, h]

/-- When the flag is up and no stop is requested, the loop executes
every iteration of the trace — exceptions included — and is still
running afterwards. -/
lemma polling_loop_runs_all (interval : Nat) :
    ∀ (events : List CycleEvent) (s : MgrState), s.sync_running = true →
    (∀ e ∈ events, e.stopDuring = false) →
    (polling_loop interval events s).2 = events.length
    ∧ (polling_loop interval events s).1.sync_running = true := by
  intro events
  induction events with
  | nil => exact fun s h _ => ⟨rfl, h⟩
  | cons e rest ih =>
    intro s h hns
    have hstop : e.stopDuring = false := hns e (List.mem_cons_self _ _)
    have hrun2 : (polling_cycle e.fetch e.fetchRaises e.cbRaises e.sleepRaises
        e.tStart e.tNow interval s).state.sync_running = true := by
      rw [polling_cycle_sync_running]
      exact h
    have hrest := ih _ hrun2 (fun e2 he2 => hns e2 (List.mem_cons_of_mem _ he2))
    simp only [polling_loop, h, if_true, hstop, Bool.false_eq_true, if_false,
      List.length_cons]
    exact ⟨by rw [hrest.1], hrest.2⟩

/-! ### Claim theorems -/

/-- C1: when the fetch of a polling cycle yields a non-empty batch and
the consumer callback raises, the exception is caught by the outer
handler and the whole manager state — in particular the `last_sync`
watermark — is left exactly as it was before the cycle, so the next
cycle reuses the same batch boundary (at-least-once delivery). -/
theorem c1_callback_exn_keeps_watermark
    (fetch : Int → Option (List Nat)) (sleepRaises : Bool) (tStart tNow : Int)
    (interval : Nat) (s : MgrState) (orders : List Nat)
    (hfetch : fetch s.last_sync = some orders) (hne : orders ≠ []) :
    (polling_cycle fetch false true sleepRaises tStart tNow interval s).state = s := by
  simp [polling_cycle, hfetch, hne]

/-- Witness for C1 at a concrete cycle. -/
theorem c1_witness :
    (polling_cycle (fun _ => some [5]) false true false 0 7 60
        { api := some (), sync_running := true, last_sync := 0 }).state
      = { api := some (), sync_running := true, last_sync := 0 } :=
  c1_callback_exn_keeps_watermark (fun _ => some [5]) false 0 7 60
    { api := some (), sync_running := true, last_sync := 0 } [5] rfl (by decide)

/-- C3 counterexample: a cycle that begins at instant 0, fetches a
non-empty batch and whose callback returns normally sets the watermark
from a clock reading taken after the callback (here 5), not to the
cycle's start time 0 — the code runs `datetime.now(timezone.utc)` only
after `on_order_update` returns, so the stored instant is later than
the cycle's start whenever any time has elapsed. -/
theorem c3_counterexample :
    (polling_cycle (fun _ => some [5]) false false false 0 5 60
        { api := some (), sync_running := true, last_sync := -100 }).state.last_sync = 5
    ∧ (5 : Int) ≠ 0 := by
  constructor
  · rfl
  · decide

/-- C3 (amended): in a cycle that starts at `tStart`, fetches a
non-empty batch, and whose callback returns normally, the watermark is
advanced to `tNow`, the fresh clock reading taken at the assignment
after the callback returns — an instant at or after the cycle's start,
not necessarily equal to it. -/
theorem c3_watermark_advances_to_post_callback_now
    (fetch : Int → Option (List Nat)) (sleepRaises : Bool) (tStart tNow : Int)
    (hle : tStart ≤ tNow) (interval : Nat) (s : MgrState) (orders : List Nat)
    (hfetch : fetch s.last_sync = some orders) (hne : orders ≠ []) :
    (polling_cycle fetch false false sleepRaises tStart tNow interval s).state.last_sync = tNow
    ∧ tStart ≤ tNow := by
  refine ⟨?_, hle⟩
  cases sleepRaises <;> simp [polling_cycle, hfetch, hne]

/-- Witness for the amended C3 at a concrete cycle. -/
theorem c3_amended_witness :
    (polling_cycle (fun _ => some [5]) false false false 0 5 60
        { api := some (), sync_running := true, last_sync := -100 }).state.last_sync = 5
    ∧ (0 : Int) ≤ 5 :=
  c3_watermark_advances_to_post_callback_now (fun _ => some [5]) false 0 5 (by decide) 60
    { api := some (), sync_running := true, last_sync := -100 } [5] rfl (by decide)

/-- C9: `initialize` returns true exactly when the client was
constructed and the `system_status` probe answered with status 200;
when construction or the probe raises, the exception is caught (the
model is a total function) and false is returned. -/
theorem c9_init_true_iff_probe_200 (s : MgrState) (o : InitOutcome) :
    (initManager s o).2 = true ↔ o = .statusCode 200 := by
  cases o with
  | ctorRaises => simp [initManager]
  | probeRaises => simp [initManager]
  | statusCode c => simp [initManager]

/-- C10: when `initialize` constructs the client but then returns
false (probe raised, or probe answered a non-200 status), the handle
stays stored in `self.api`; consequently a later `get_orders` does not
take the uninitialized `None` short-circuit but issues at least one
network request. -/
theorem c10_failed_init_leaves_handle (s : MgrState) (o : InitOutcome)
    (hfail : o = .probeRaises ∨ ∃ c, c ≠ 200 ∧ o = .statusCode c) :
    (initManager s o).2 = false
    ∧ (initManager s o).1.api = some ()
    ∧ ∀ (server : PageRequest → PageResp) (per_page : Nat) (params : Params)
        (pa : Bool) (fuel : Nat) (res : Option (List Nat)) (issued : List PageRequest),
        0 < fuel →
        get_orders (initManager s o).1 server per_page params pa fuel = some (res, issued) →
        issued ≠ [] := by
  have hapi : (initManager s o).1.api = some () ∧ (initManager s o).2 = false := by
    rcases hfail with rfl | ⟨c, hc, rfl⟩
    · exact ⟨rfl, rfl⟩
    · refine ⟨rfl, ?_⟩
      simpa [initManager] using hc
  refine ⟨hapi.2, hapi.1, ?_⟩
  intro server per_page params pa fuel res issued hfuel h
  rw [get_orders, hapi.1] at h
  have hsub := get_orders_loop_first_req server per_page params pa fuel 1 [] [] res issued hfuel h
  intro hnil
  subst hnil
  have hmem : mkRequest per_page 1 params ∈ ([] : List PageRequest) := hsub (by simp)
  simp at hmem

/-- Witness for C10: a probe that answers 404. -/
theorem c10_witness :
    (initManager { api := none, sync_running := false, last_sync := 0 } (.statusCode 404)).2 = false
    ∧ (initManager { api := none, sync_running := false, last_sync := 0 } (.statusCode 404)).1.api = some ()
    ∧ ∀ (server : PageRequest → PageResp) (per_page : Nat) (params : Params)
        (pa : Bool) (fuel : Nat) (res : Option (List Nat)) (issued : List PageRequest),
        0 < fuel →
        get_orders (initManager { api := none, sync_running := false, last_sync := 0 }
          (.statusCode 404)).1 server per_page params pa fuel = some (res, issued) →
        issued ≠ [] :=
  c10_failed_init_leaves_handle { api := none, sync_running := false, last_sync := 0 }
    (.statusCode 404) (Or.inr ⟨404, by decide, rfl⟩)

/-- C6: the background loop never terminates because of an exception.
Over any finite trace of iteration environments in which no stop is
requested, a running loop executes every iteration (fetch, callback or
sleep may raise in any of them) and is still running afterwards; every
caught exception is followed by the fixed 60-second back-off sleep;
and the loop runs zero iterations exactly when the `sync_running` flag
has been cleared by an explicit stop. -/
theorem c6_loop_survives_exceptions (interval : Nat) (events : List CycleEvent)
    (s : MgrState) (hrun : s.sync_running = true)
    (hnostop : ∀ e ∈ events, e.stopDuring = false) :
    (polling_loop interval events s).2 = events.length
    ∧ (polling_loop interval events s).1.sync_running = true
    ∧ (∀ (fetch : Int → Option (List Nat)) (fr cb sl : Bool) (tS tN : Int)
        (s2 : MgrState),
        (polling_cycle fetch fr cb sl tS tN interval s2).caught = true →
        (polling_cycle fetch fr cb sl tS tN interval s2).sleep = 60)
    ∧ (∀ s3 : MgrState, s3.sync_running = false →
        polling_loop interval events s3 = (s3, 0)) := by
  obtain ⟨h1, h2⟩ := polling_loop_runs_all interval events s hrun hnostop
  exact ⟨h1, h2,
    fun fetch fr cb sl tS tN s2 => polling_cycle_caught_sleep fetch fr cb sl tS tN interval s2,
    fun s3 h3 => polling_loop_not_running interval events s3 h3⟩

/-- Trace used by the witness of C6: one cycle whose callback raises,
then one whose fetch raises; no stop request. -/
def sampleEvents : List CycleEvent :=
  [{ fetch := fun _ => some [1], fetchRaises := false, cbRaises := true,
     sleepRaises := false, tStart := 0, tNow := 5, stopDuring := false },
   { fetch := fun _ => none, fetchRaises := true, cbRaises := false,
     sleepRaises := false, tStart := 6, tNow := 9, stopDuring := false }]

/-- Witness for C6 on a concrete two-cycle trace. -/
theorem c6_witness :
    (polling_loop 60 sampleEvents { api := some (), sync_running := true, last_sync := 0 }).2
      = sampleEvents.length
    ∧ (polling_loop 60 sampleEvents
        { api := some (), sync_running := true, last_sync := 0 }).1.sync_running = true
    ∧ (∀ (fetch : Int → Option (List Nat)) (fr cb sl : Bool) (tS tN : Int)
        (s2 : MgrState),
        (polling_cycle fetch fr cb sl tS tN 60 s2).caught = true →
        (polling_cycle fetch fr cb sl tS tN 60 s2).sleep = 60)
    ∧ (∀ s3 : MgrState, s3.sync_running = false →
        polling_loop 60 sampleEvents s3 = (s3, 0)) :=
  c6_loop_survives_exceptions 60 sampleEvents
    { api := some (), sync_running := true, last_sync := 0 } rfl
    (by
      intro e he
      simp only [sampleEvents, List.mem_cons, List.not_mem_nil, or_false] at he
      rcases he with rfl | rfl <;> rfl)

/-- C7: for every watermark `T`, `fetch_orders_since` issues exactly
one request — regardless of how many pages exist server-side — and
that request carries a `modified_after` lower bound of exactly
`T` minus 5 minutes (300 seconds) and page index 1. -/
theorem c7_fetch_since_one_request (s : MgrState) (hapi : s.api = some ())
    (server : PageRequest → PageResp) (per_page fuel : Nat) (T : Int)
    (hfuel : 0 < fuel) :
    ∃ res, fetch_orders_since s server per_page fuel T
      = some (res, [mkRequest per_page 1 { modified_after := some (T - 300), after := none }]) := by
  obtain ⟨n, rfl⟩ : ∃ n, fuel = n + 1 := ⟨fuel - 1, by omega⟩
  rw [fetch_orders_since, get_orders, hapi]
  cases hsv : server (mkRequest per_page 1 { modified_after := some (T - 300), after := none }) with
  | exn => exact ⟨none, by simp [get_orders_loop, hsv]⟩
  | resp code body =>
    by_cases hc : code = 200
    · cases body with
      | notList => exact ⟨some [], by simp [get_orders_loop, hsv, hc]⟩
      | ok xs =>
        by_cases hxs : xs = []
        · exact ⟨some [], by simp [get_orders_loop, hsv, hc, hxs]⟩
        · exact ⟨some xs, by simp [get_orders_loop, hsv, hc, hxs]⟩
    · exact ⟨some [], by simp [get_orders_loop, hsv, hc]⟩

/-- Witness for C7: a server with plenty of data still gets exactly
one request, with the 5-minute overlap bound. -/
theorem c7_witness :
    ∃ res, fetch_orders_since { api := some (), sync_running := false, last_sync := 0 }
        (fun _ => .resp 200 (.ok [7])) 100 1 1000
      = some (res, [mkRequest 100 1 { modified_after := some (1000 - 300), after := none }]) :=
  c7_fetch_since_one_request { api := some (), sync_running := false, last_sync := 0 } rfl
    (fun _ => .resp 200 (.ok [7])) 100 1 1000 (by decide)

/-- C8: every request issued by `fetch_last_day_orders` carries an
`after` (created-after) lower bound of exactly `now` minus 24 hours
(86400 seconds) and no `modified_after` bound; the result does not
depend on the watermark `last_sync`; and the pager is invoked with
`paginate_all` true. -/
theorem c8_last_day_filter (s : MgrState) (server : PageRequest → PageResp)
    (per_page fuel : Nat) (now : Int)
    (res : Option (List Nat)) (issued : List PageRequest)
    (h : fetch_last_day_orders s server per_page fuel now = some (res, issued)) :
    (∀ r ∈ issued, r.after = some (now - 86400) ∧ r.modified_after = none
        ∧ r.per_page = per_page)
    ∧ (∀ v : Int, fetch_last_day_orders { s with last_sync := v } server per_page fuel now
        = fetch_last_day_orders s server per_page fuel now)
    ∧ fetch_last_day_orders s server per_page fuel now
        = get_orders s server per_page
            { modified_after := none, after := some (now - 86400) } true fuel := by
  refine ⟨?_, fun v => rfl, rfl⟩
  intro r hr
  rw [fetch_last_day_orders, get_orders] at h
  cases hapi : s.api with
  | none =>
    rw [hapi] at h
    cases h
    simp at hr
  | some u =>
    rw [hapi] at h
    rcases get_orders_loop_issued_shape server per_page
        { modified_after := none, after := some (now - 86400) } true
        fuel 1 [] [] res issued h r hr with h0 | ⟨pg, rfl⟩
    · simp at h0
    · exact ⟨rfl, rfl, rfl⟩

/-- Witness for C8 on a two-page simulated server. -/
theorem c8_witness :
    (∀ r ∈ [mkRequest 2 1 { modified_after := none, after := some ((100000 : Int) - 86400) },
            mkRequest 2 2 { modified_after := none, after := some ((100000 : Int) - 86400) }],
        r.after = some ((100000 : Int) - 86400) ∧ r.modified_after = none ∧ r.per_page = 2)
    ∧ (∀ v : Int, fetch_last_day_orders { api := some (), sync_running := false, last_sync := v }
          (pageServer [[1, 2], [3]]) 2 3 100000
        = fetch_last_day_orders { api := some (), sync_running := false, last_sync := 0 }
            (pageServer [[1, 2], [3]]) 2 3 100000)
    ∧ fetch_last_day_orders { api := some (), sync_running := false, last_sync := 0 }
          (pageServer [[1, 2], [3]]) 2 3 100000
        = get_orders { api := some (), sync_running := false, last_sync := 0 }
            (pageServer [[1, 2], [3]]) 2
            { modified_after := none, after := some ((100000 : Int) - 86400) } true 3 :=
  c8_last_day_filter { api := some (), sync_running := false, last_sync := 0 }
    (pageServer [[1, 2], [3]]) 2 3 100000
    (some [1, 2, 3])
    [mkRequest 2 1 { modified_after := none, after := some ((100000 : Int) - 86400) },
     mkRequest 2 2 { modified_after := none, after := some ((100000 : Int) - 86400) }]
    (by decide)

/-- C2: against a simulated server whose pages are all full-size
except a shorter, non-empty last page, `get_orders` in fetch-all mode
returns exactly the concatenation of all pages in page order and
issues exactly `ceil(total / per_page)` requests. -/
theorem c2_paginate_all_exact (s : MgrState) (hapi : s.api = some ())
    (full : List (List Nat)) (lastPage : List Nat) (per_page fuel : Nat)
    (params : Params) (hpp : 0 < per_page)
    (hfull : ∀ p ∈ full, p.length = per_page)
    (hlast1 : lastPage ≠ []) (hlast2 : lastPage.length < per_page)
    (hfuel : full.length + 1 ≤ fuel) :
    ∃ issued,
      get_orders s (pageServer (full ++ [lastPage])) per_page params true fuel
        = some (some ((full ++ [lastPage]).flatten), issued)
      ∧ issued.length = ((full ++ [lastPage]).flatten.length + per_page - 1) / per_page := by
  obtain ⟨k, rfl⟩ : ∃ k, fuel = (k + 1) + full.length := ⟨fuel - full.length - 1, by omega⟩
  refine ⟨(List.range full.length).map (fun i => mkRequest per_page (1 + i) params)
      ++ [mkRequest per_page (1 + full.length) params], ?_, ?_⟩
  · rw [get_orders_api s hapi]
    rw [get_orders_loop_full_block (pageServer (full ++ [lastPage])) per_page params hpp
      full 1 [] [] (k + 1) hfull (pageServer_full_part full lastPage per_page params)]
    have hlast_sv : pageServer (full ++ [lastPage]) (mkRequest per_page (1 + full.length) params)
        = .resp 200 (.ok lastPage) := by
      have hlt : full.length < (full ++ [lastPage]).length := by simp
      rw [pageServer_lookup _ _ full.length (by simp [mkRequest]) hlt]
      congr 1
      congr 1
      simp only [List.get_eq_getElem]
      exact List.getElem_concat_length full lastPage _ rfl _
    rw [loop_step_stop_short _ per_page params (1 + full.length) lastPage hlast_sv hlast1 hlast2 k]
    simp [List.flatten_append]
  · simp only [List.length_append, List.length_map, List.length_range,
      List.length_cons, List.length_nil]
    have htot : (full ++ [lastPage]).flatten.length
        = full.length * per_page + lastPage.length := by
      simp [List.flatten_append, flatten_length_of_full per_page full hfull]
    rw [htot]
    obtain ⟨L, hL⟩ : ∃ L, lastPage.length = L + 1 :=
      ⟨lastPage.length - 1, by have := List.length_pos.mpr hlast1; omega⟩
    rw [hL]
    have harith : full.length * per_page + (L + 1) + per_page - 1
        = per_page * (full.length + 1) + L := by
      have hmul : per_page * (full.length + 1) = full.length * per_page + per_page := by ring
      rw [hmul]
      generalize full.length * per_page = A
      omega
    rw [harith, Nat.mul_add_div hpp]
    have hL2 : L / per_page = 0 := Nat.div_eq_of_lt (by omega)
    rw [hL2]

/-- Witness for C2: page size 2, five records split as 2 + 2 + 1 —
three requests, five records returned in order. -/
theorem c2_witness :
    ∃ issued,
      get_orders { api := some (), sync_running := false, last_sync := 0 }
          (pageServer ([[1, 2], [3, 4]] ++ [[5]])) 2
          { modified_after := none, after := none } true 3
        = some (some (([[1, 2], [3, 4]] ++ [[5]]).flatten), issued)
      ∧ issued.length = ((([[1, 2], [3, 4]] ++ [[5]]).flatten).length + 2 - 1) / 2 :=
  c2_paginate_all_exact { api := some (), sync_running := false, last_sync := 0 } rfl
    [[1, 2], [3, 4]] [5] 2 3 { modified_after := none, after := none }
    (by decide) (by decide) (by decide) (by decide) (by decide)

/-- C4: when the transport raises on any page — here, on the page
right after a block of successfully delivered full pages — the whole
`get_orders` call returns the `None` signal instead of the partial
list accumulated so far, after having issued one request per page
including the failing one. -/
theorem c4_transport_exn_returns_none (s : MgrState) (hapi : s.api = some ())
    (server : PageRequest → PageResp) (per_page fuel : Nat) (params : Params)
    (full : List (List Nat)) (hpp : 0 < per_page)
    (hfull : ∀ p ∈ full, p.length = per_page)
    (hserver : ∀ i (h : i < full.length),
        server (mkRequest per_page (1 + i) params) = .resp 200 (.ok (full.get ⟨i, h⟩)))
    (hexn : server (mkRequest per_page (1 + full.length) params) = .exn)
    (hfuel : full.length + 1 ≤ fuel) :
    ∃ issued, get_orders s server per_page params true fuel = some (none, issued)
      ∧ issued.length = full.length + 1 := by
  obtain ⟨k, rfl⟩ : ∃ k, fuel = (k + 1) + full.length := ⟨fuel - full.length - 1, by omega⟩
  refine ⟨(List.range full.length).map (fun i => mkRequest per_page (1 + i) params)
      ++ [mkRequest per_page (1 + full.length) params], ?_, by simp⟩
  rw [get_orders_api s hapi]
  rw [get_orders_loop_full_block server per_page params hpp full 1 [] [] (k + 1) hfull hserver]
  rw [loop_step_exn server per_page params (1 + full.length) hexn true k]
  simp

/-- Witness for C4: page 1 succeeds full, the transport raises on
page 2 — the result is `None`, not the partial `[1, 2]`. -/
theorem c4_witness :
    ∃ issued,
      get_orders { api := some (), sync_running := false, last_sync := 0 }
          (fun r => if r.page = 2 then .exn else .resp 200 (.ok [1, 2])) 2
          { modified_after := none, after := none } true 2
        = some (none, issued)
      ∧ issued.length = [[1, 2]].length + 1 :=
  c4_transport_exn_returns_none { api := some (), sync_running := false, last_sync := 0 } rfl
    (fun r => if r.page = 2 then .exn else .resp 200 (.ok [1, 2])) 2 2
    { modified_after := none, after := none } [[1, 2]]
    (by decide) (by decide)
    (by
      intro i h
      have hi : i = 0 := by
        simp at h
        omega
      subst hi
      rfl)
    rfl (by decide)

/-- C5: when a page answers a non-success status — here, the page
right after a block of successfully delivered full pages — the
pagination stops without raising and returns exactly the
concatenation of the strictly earlier pages, the failing page having
been requested once and nothing after it. -/
theorem c5_non_success_keeps_earlier_pages (s : MgrState) (hapi : s.api = some ())
    (server : PageRequest → PageResp) (per_page fuel : Nat) (params : Params)
    (full : List (List Nat)) (hpp : 0 < per_page)
    (hfull : ∀ p ∈ full, p.length = per_page)
    (hserver : ∀ i (h : i < full.length),
        server (mkRequest per_page (1 + i) params) = .resp 200 (.ok (full.get ⟨i, h⟩)))
    (code : Nat) (body : Body) (hcode : code ≠ 200)
    (hfail : server (mkRequest per_page (1 + full.length) params) = .resp code body)
    (hfuel : full.length + 1 ≤ fuel) :
    ∃ issued, get_orders s server per_page params true fuel
        = some (some full.flatten, issued)
      ∧ issued.length = full.length + 1 := by
  obtain ⟨k, rfl⟩ : ∃ k, fuel = (k + 1) + full.length := ⟨fuel - full.length - 1, by omega⟩
  refine ⟨(List.range full.length).map (fun i => mkRequest per_page (1 + i) params)
      ++ [mkRequest per_page (1 + full.length) params], ?_, by simp⟩
  rw [get_orders_api s hapi]
  rw [get_orders_loop_full_block server per_page params hpp full 1 [] [] (k + 1) hfull hserver]
  rw [loop_step_bad_status server per_page params (1 + full.length) code body hfail hcode true k]
  simp

/-- Witness for C5: page 1 succeeds full, page 2 answers status 500 —
the call returns exactly page 1 and issued two requests. -/
theorem c5_witness :
    ∃ issued,
      get_orders { api := some (), sync_running := false, last_sync := 0 }
          (fun r => if r.page = 2 then .resp 500 (.ok [9]) else .resp 200 (.ok [1, 2])) 2
          { modified_after := none, after := none } true 2
        = some (some ([[1, 2]] : List (List Nat)).flatten, issued)
      ∧ issued.length = [[1, 2]].length + 1 :=
  c5_non_success_keeps_earlier_pages { api := some (), sync_running := false, last_sync := 0 } rfl
    (fun r => if r.page = 2 then .resp 500 (.ok [9]) else .resp 200 (.ok [1, 2])) 2 2
    { modified_after := none, after := none } [[1, 2]]
    (by decide) (by decide)
    (by
      intro i h
      have hi : i = 0 := by
        simp at h
        omega
      subst hi
      rfl)
    500 (.ok [9]) (by decide) rfl (by decide)

end WC
